import Mathlib

/-!
Verification of NanoVNASaver/RFTools.py.

Embedding conventions:
* Python `float` is modelled by `ℝ`, `complex` by `ℂ`, `int` by `ℤ`.
* A Python expression that can raise is modelled with `Option`/`Except`
  (`none` / `Except.error` = the exception propagates).
* `math.inf` / `-math.inf` appearing as *returned values* are modelled with
  `EReal` (`⊤` / `⊥`) or a dedicated sum type, as indicated per function.
-/

/-- Errors raised by the Python code: `assert` failures (the spec's
`InvariantViolation`) and out-of-range indexing. -/
inductive PyErr where
  | invariantViolation : PyErr
  | indexError : PyErr
deriving DecidableEq

/-- `Datapoint(NamedTuple)`: one measurement, `freq: int`, `re: float`, `im: float`. -/
structure Datapoint where
  freq : ℤ
  re : ℝ
  im : ℝ

instance : Inhabited Datapoint := ⟨⟨0, 0, 0⟩⟩

/-- `Datapoint.z`: `complex(self.re, self.im)`. -/
def Datapoint.z (dp : Datapoint) : ℂ := ⟨dp.re, dp.im⟩

/-- `Datapoint.phase`: `cmath.phase(self.z)`, the principal argument. -/
noncomputable def Datapoint.phase (dp : Datapoint) : ℝ := Complex.arg dp.z

/-- `Datapoint.vswr`: `1` when `abs(z) == 1`, else `(1+mag)/(1-mag)`. -/
noncomputable def Datapoint.vswr (dp : Datapoint) : ℝ :=
  let mag := Complex.abs dp.z
  if mag = 1 then 1 else (1 + mag) / (1 - mag)

/-- `Datapoint.wavelength`: `299792458 / self.freq`. In Python this is int
true division, which raises `ZeroDivisionError` when `freq == 0`; `none`
models the raised exception. -/
noncomputable def Datapoint.wavelength (dp : Datapoint) : Option ℝ :=
  if dp.freq = 0 then none else some (299792458 / (dp.freq : ℝ))

/-- Result of `gamma_to_impedance`: either a finite complex value or the
float `math.inf` returned on `ZeroDivisionError`. -/
inductive ComplexOrInf where
  | fin (z : ℂ) : ComplexOrInf
  | inf : ComplexOrInf

/-- `gamma_to_impedance(gamma, ref_impedance)`: `((-gamma - 1) / (gamma - 1)) * ref_impedance`
inside `try`, returning `math.inf` on `ZeroDivisionError`. Complex division
raises exactly when the denominator `gamma - 1` is zero. -/
noncomputable def gamma_to_impedance (gamma : ℂ) (ref_impedance : ℝ) : ComplexOrInf :=
  if gamma - 1 = 0 then ComplexOrInf.inf
  else ComplexOrInf.fin (((-gamma - 1) / (gamma - 1)) * (ref_impedance : ℂ))

/-- `impedance_to_capacitance(z, freq)`: `-inf` when `freq == 0`, `inf` when
`z.imag == 0`, else `-(1 / (freq * 2 * math.pi * z.imag))`. -/
noncomputable def impedance_to_capacitance (z : ℂ) (freq : ℝ) : EReal :=
  if freq = 0 then ⊥
  else if z.im = 0 then ⊤
  else ((-(1 / (freq * 2 * Real.pi * z.im)) : ℝ) : EReal)

/-- `impedance_to_inductance(z, freq)`: `0` when `freq == 0`, else
`z.imag * 1 / (freq * 2 * math.pi)`. -/
noncomputable def impedance_to_inductance (z : ℂ) (freq : ℝ) : ℝ :=
  if freq = 0 then 0 else z.im * 1 / (freq * 2 * Real.pi)

/-- `impedance_to_norm(z, ref_impedance)`: `z / ref_impedance`. Python float
division raises `ZeroDivisionError` when `ref_impedance == 0` (`none`). -/
noncomputable def impedance_to_norm (z : ℂ) (ref_impedance : ℝ) : Option ℂ :=
  if ref_impedance = 0 then none else some (z / (ref_impedance : ℂ))

/-- `norm_to_impedance(z, ref_impedance)`: `z * ref_impedance`. -/
noncomputable def norm_to_impedance (z : ℂ) (ref_impedance : ℝ) : ℂ :=
  z * (ref_impedance : ℂ)

/-- `math.copysign(math.inf, s)` as an `EReal`: `-inf` for negative `s`,
`+inf` otherwise (real arguments here are never `-0.0`). -/
noncomputable def copysignInf (s : ℝ) : EReal := if s < 0 then ⊥ else ⊤

/-- `serial_to_parallel(z)`: `|z|²` decomposition with signed infinities when a
component is zero; each slot is an `EReal`. -/
noncomputable def serial_to_parallel (z : ℂ) : EReal × EReal :=
  let z_sq_sum := z.re ^ 2 + z.im ^ 2
  if z.re = 0 ∧ z.im = 0 then (⊤, ⊤)
  else if z.im = 0 then (((z_sq_sum / z.re : ℝ) : EReal), copysignInf z_sq_sum)
  else if z.re = 0 then (copysignInf z_sq_sum, ((z_sq_sum / z.im : ℝ) : EReal))
  else (((z_sq_sum / z.re : ℝ) : EReal), ((z_sq_sum / z.im : ℝ) : EReal))

/-- `corr_att_data(data, att)`: identity when `att <= 0`, otherwise scales each
sample's complex value by `10**(att/20)`. -/
noncomputable def corr_att_data (data : List Datapoint) (att : ℝ) : List Datapoint :=
  if att ≤ 0 then data
  else
    data.map (fun dp =>
      let corrected := dp.z * (((10 : ℝ) ^ (att / 20) : ℝ) : ℂ)
      ⟨dp.freq, corrected.re, corrected.im⟩)

/-- Modelled from the spec: `clamp_value` from `NanoVNASaver.SITools` (not under
`src/`): clamps a value into the inclusive range `[minv, maxv]`. -/
def clamp_value (value minv maxv : ℤ) : ℤ := max minv (min value maxv)

/-- `groupDelay(data, index)`: clamps `index±1` into `[0, len(data)-1]`, returns
`0` when the two clamped samples share a frequency, else
`-delta_angle / math.tau / delta_freq` (`math.tau = 2π`). -/
noncomputable def groupDelay (data : List Datapoint) (index : ℤ) : ℝ :=
  let idx0 := clamp_value (index - 1) 0 (data.length - 1)
  let idx1 := clamp_value (index + 1) 0 (data.length - 1)
  let dp0 := data.getD idx0.toNat default
  let dp1 := data.getD idx1.toNat default
  let delta_angle := dp1.phase - dp0.phase
  let delta_freq := dp1.freq - dp0.freq
  if delta_freq = 0 then 0
  else -delta_angle / (2 * Real.pi) / ((delta_freq : ℝ))

/-- A built scipy `interp1d` object: it freezes the `(x, y)` samples it was
constructed from. -/
structure Interp1d where
  xs : List ℤ
  ys : List ℝ

/-- Modelled from the spec: evaluation of a scipy `interp1d` (external
library, not in this repository) with `kind="slinear"`, `bounds_error=False`
and `fill_value=(ys[0], ys[-1])`: piecewise-linear interpolation over the
ascending samples, clamped to the first/last value outside the range. -/
noncomputable def interpEval : List ℤ → List ℝ → ℤ → ℝ
  | x0 :: xs, y0 :: ys, x =>
    if x ≤ x0 then y0
    else
      match xs, ys with
      | x1 :: _, y1 :: _ =>
        if x ≤ x1 then
          y0 + (y1 - y0) * (((x : ℝ) - (x0 : ℝ)) / ((x1 : ℝ) - (x0 : ℝ)))
        else interpEval xs ys x
      | _, _ => y0
  | _, _, _ => 0

/-- Python `dict` as an insertion-ordered association list with unique keys;
assignment `d[k] = v` replaces in place or appends. -/
def dictInsert : List (ℤ × List ℂ) → ℤ → List ℂ → List (ℤ × List ℂ)
  | [], k, v => [(k, v)]
  | (k', v') :: rest, k, v =>
    if k' = k then (k, v) :: rest else (k', v') :: dictInsert rest k v

/-- `d[k]` lookup (`none` = `KeyError`, unreachable in the uses below). -/
def dictLookup (d : List (ℤ × List ℂ)) (k : ℤ) : List ℂ :=
  match d.find? (fun p => p.1 == k) with
  | some p => p.2
  | none => []

/-- Insert into an ascending list of keys (used to model `sorted(...)`). -/
def sortedInsert (x : ℤ) : List ℤ → List ℤ
  | [] => [x]
  | y :: ys => if x ≤ y then x :: y :: ys else y :: sortedInsert x ys

/-- `sorted(keys)`: insertion sort. -/
def sortKeys (l : List ℤ) : List ℤ := l.foldr sortedInsert []

/-- `DataSet`: `fields`, `data` dict, `interp` cache, `inter_valid` flag
(the advisory `Lock` has no effect on the sequential semantics). -/
structure DataSet where
  fields : List String
  data : List (ℤ × List ℂ)
  interp : List (Interp1d × Interp1d)
  inter_valid : Bool

/-- `DataSet.insert(datapoints)`: `assert len(datapoints) == len(self.fields)`,
`assert len(set(freqs)) == 1`, then store `[dp.z for dp in datapoints]` under
`datapoints[0].freq` and clear `inter_valid`. Failed asserts are the spec's
`InvariantViolation`. -/
def DataSet.insert (ds : DataSet) (datapoints : List Datapoint) :
    Except PyErr DataSet :=
  if datapoints.length = ds.fields.length ∧
      ((datapoints.map Datapoint.freq).dedup).length = 1 then
    match datapoints with
    | [] => Except.error PyErr.indexError
    | dp :: _ =>
      Except.ok { ds with
        data := dictInsert ds.data dp.freq (datapoints.map Datapoint.z),
        inter_valid := false }
  else Except.error PyErr.invariantViolation

/-- `DataSet.items_complex()`: `(freq, self.data[freq])` for `freq` in
`sorted(self.data.keys())`. -/
def DataSet.items_complex (ds : DataSet) : List (ℤ × List ℂ) :=
  (sortKeys (ds.data.map Prod.fst)).map (fun f => (f, dictLookup ds.data f))

/-- `DataSet.gen_interpolation()`: for each field index, append a pair of
interpolators built over the sorted samples to `self.interp` (the original
code appends and never clears the list), then set `inter_valid`. -/
noncomputable def DataSet.gen_interpolation (ds : DataSet) : DataSet :=
  let pts := ds.items_complex
  { ds with
    interp := ds.interp ++ (List.range ds.fields.length).map (fun i =>
      (⟨pts.map Prod.fst, pts.map (fun p => (p.2.getD i 0).re)⟩,
       ⟨pts.map Prod.fst, pts.map (fun p => (p.2.getD i 0).im)⟩)),
    inter_valid := true }

/-- `DataSet.freq(freq)`: rebuild the cache when `inter_valid` is false, then
return one `Datapoint` per entry of `self.interp`. Returns the list together
with the mutated state. -/
noncomputable def DataSet.freq (ds : DataSet) (f : ℤ) :
    List Datapoint × DataSet :=
  let ds' := if ds.inter_valid then ds else ds.gen_interpolation
  (ds'.interp.map (fun p =>
    ⟨f, interpEval p.1.xs p.1.ys f, interpEval p.2.xs p.2.ys f⟩), ds')

/-- The spec's cache-invalidation scenario on a fresh two-field `DataSet`:
insert samples at frequencies 100 and 200, read interpolated values at 100,
insert new values at 100, read again at 100; returns both read results. -/
noncomputable def c1_trace : Except PyErr (List Datapoint × List Datapoint) := do
  let ds0 : DataSet := ⟨["11", "21"], [], [], false⟩
  let ds1 ← ds0.insert [⟨100, 1, 0⟩, ⟨100, 2, 0⟩]
  let ds2 ← ds1.insert [⟨200, 3, 0⟩, ⟨200, 4, 0⟩]
  let r1 := ds2.freq 100
  let ds4 ← r1.2.insert [⟨100, 5, 0⟩, ⟨100, 6, 0⟩]
  let r2 := ds4.freq 100
  pure (r1.1, r2.1)

/-- One entry of `data` holds one complex value per field (spec invariant). -/
def DataSet.entryInvariant (ds : DataSet) : Prop :=
  ∀ p ∈ ds.data, (p.2).length = ds.fields.length

/-- `dictInsert` with a value of the right arity preserves the arity of all
stored values. -/
theorem dictInsert_entry_length {d : List (ℤ × List ℂ)} {n : ℕ}
    (hall : ∀ p ∈ d, (p.2).length = n) (k : ℤ) {v : List ℂ}
    (hv : v.length = n) : ∀ p ∈ dictInsert d k v, (p.2).length = n := by
  induction d with
  | nil =>
    intro p hp
    simp only [dictInsert, List.mem_singleton] at hp
    simpa [hp] using hv
  | cons q rest ih =>
    intro p hp
    by_cases hk : q.1 = k
    · simp only [dictInsert, if_pos hk, List.mem_cons] at hp
      rcases hp with h | h
      · simpa [h] using hv
      · exact hall p (List.mem_cons_of_mem q h)
    · simp only [dictInsert, if_neg hk, List.mem_cons] at hp
      rcases hp with h | h
      · exact hall p (h ▸ List.mem_cons_self q rest)
      · exact ih (fun r hr => hall r (List.mem_cons_of_mem q hr)) p h

/-- C2 counterexample: at `freq = 0` the code raises `ZeroDivisionError`
(returns no value at all), so it does not return positive infinity. -/
theorem wavelength_zero_raises : Datapoint.wavelength ⟨0, 0, 0⟩ = none := by
  simp [Datapoint.wavelength]

/-- C2 (amended): `wavelength` raises `ZeroDivisionError` (modelled `none`)
when `freq == 0`, and returns `299792458 / freq` for every `freq > 0`. -/
theorem wavelength_spec (dp : Datapoint) :
    (dp.freq = 0 → dp.wavelength = none) ∧
    (0 < dp.freq → dp.wavelength = some (299792458 / (dp.freq : ℝ))) := by
  constructor
  · intro h
    simp [Datapoint.wavelength, h]
  · intro h
    simp [Datapoint.wavelength, h.ne.symm]

/-- C2 witness: both branches of `wavelength_spec` at concrete datapoints. -/
theorem wavelength_spec_witness :
    Datapoint.wavelength ⟨0, 1, 2⟩ = none ∧
    Datapoint.wavelength ⟨2, 1, 2⟩ = some (299792458 / ((2 : ℤ) : ℝ)) :=
  ⟨(wavelength_spec ⟨0, 1, 2⟩).1 rfl, (wavelength_spec ⟨2, 1, 2⟩).2 (by norm_num)⟩

/-- C5: `gamma_to_impedance` returns `math.inf` exactly at `Γ = 1` and
otherwise the finite value `((-Γ-1)/(Γ-1))·Z0`, never propagating an
exception. -/
theorem gamma_to_impedance_spec (gamma : ℂ) (Z0 : ℝ) :
    (gamma = 1 → gamma_to_impedance gamma Z0 = ComplexOrInf.inf) ∧
    (gamma ≠ 1 → gamma_to_impedance gamma Z0 =
      ComplexOrInf.fin (((-gamma - 1) / (gamma - 1)) * (Z0 : ℂ))) := by
  constructor
  · intro h
    simp [gamma_to_impedance, h]
  · intro h
    rw [gamma_to_impedance, if_neg (by simpa [sub_eq_zero] using h)]

/-- C5 witness: both branches at `Γ = 0` and `Γ = 1` with `Z0 = 50`. -/
theorem gamma_to_impedance_spec_witness :
    gamma_to_impedance 0 50 =
      ComplexOrInf.fin (((-0 - 1) / (0 - 1)) * ((50 : ℝ) : ℂ)) ∧
    gamma_to_impedance 1 50 = ComplexOrInf.inf :=
  ⟨(gamma_to_impedance_spec 0 50).2 (by norm_num),
   (gamma_to_impedance_spec 1 50).1 rfl⟩

/-- C9 counterexample: at `Z = 1`, `Z0 = 0` the round trip raises
`ZeroDivisionError` (`none`) instead of returning `some Z`. -/
theorem norm_roundtrip_fails_at_zero :
    impedance_to_norm (norm_to_impedance 1 0) 0 = none := by
  simp [impedance_to_norm]

/-- C9 (amended): for every `Z` and every `Z0 ≠ 0`,
`impedance_to_norm(norm_to_impedance(Z, Z0), Z0)` returns exactly `Z`;
at `Z0 = 0` the outer call raises `ZeroDivisionError`. -/
theorem norm_roundtrip (Z : ℂ) (Z0 : ℝ) (h : Z0 ≠ 0) :
    impedance_to_norm (norm_to_impedance Z Z0) Z0 = some Z := by
  rw [impedance_to_norm, if_neg h, norm_to_impedance,
    mul_div_cancel_right₀ Z (by exact_mod_cast h)]

/-- C9 witness: exact round trip at `Z = 3 + 4i`, `Z0 = 50`. -/
theorem norm_roundtrip_witness :
    impedance_to_norm (norm_to_impedance ⟨3, 4⟩ 50) 50 = some ⟨3, 4⟩ :=
  norm_roundtrip ⟨3, 4⟩ 50 (by norm_num)

/-- C3: `insert` raises an `InvariantViolation` exactly when the count differs
from `len(fields)` or the datapoints carry more than one distinct frequency;
when both conditions hold it succeeds, storing the complex values under the
shared frequency `datapoints[0].freq`, clearing `inter_valid`, and preserving
the exactly-`len(fields)`-values-per-entry invariant. -/
theorem insert_spec (ds : DataSet) (dps : List Datapoint) :
    ((dps.length ≠ ds.fields.length ∨
        ((dps.map Datapoint.freq).dedup).length ≠ 1) →
      ds.insert dps = Except.error PyErr.invariantViolation) ∧
    (dps.length = ds.fields.length →
      ((dps.map Datapoint.freq).dedup).length = 1 →
      ∃ dp0 rest, dps = dp0 :: rest ∧
        ds.insert dps = Except.ok { ds with
          data := dictInsert ds.data dp0.freq (dps.map Datapoint.z),
          inter_valid := false } ∧
        (ds.entryInvariant →
          DataSet.entryInvariant { ds with
            data := dictInsert ds.data dp0.freq (dps.map Datapoint.z),
            inter_valid := false })) := by
  constructor
  · intro h
    rw [DataSet.insert.eq_def, if_neg]
    intro hc
    rcases h with h | h
    · exact h hc.1
    · exact h hc.2
  · intro h1 h2
    match dps, h1, h2 with
    | [], h1, h2 => simp at h2
    | dp0 :: rest, h1, h2 =>
      refine ⟨dp0, rest, rfl, ?_, ?_⟩
      · rw [DataSet.insert.eq_def, if_pos ⟨h1, h2⟩]
      · intro hinv
        exact dictInsert_entry_length hinv dp0.freq (by simpa using h1)


/-- C3 witness: on a concrete two-field `DataSet`, a length-mismatched insert
raises an `InvariantViolation`, and a well-formed insert of two samples at
frequency 7 succeeds, storing both complex values under key 7 and clearing
`inter_valid`. -/
theorem insert_spec_witness :
    (⟨["11", "21"], [], [], true⟩ : DataSet).insert [] =
      Except.error PyErr.invariantViolation ∧
    (⟨["11", "21"], [], [], true⟩ : DataSet).insert [⟨7, 1, 0⟩, ⟨7, 2, 0⟩] =
      Except.ok ⟨["11", "21"], [(7, [⟨1, 0⟩, ⟨2, 0⟩])], [], false⟩ := by
  constructor
  · exact (insert_spec ⟨["11", "21"], [], [], true⟩ []).1 (Or.inl (by decide))
  · obtain ⟨dp0, rest, hcons, hok, -⟩ :=
      (insert_spec ⟨["11", "21"], [], [], true⟩ [⟨7, 1, 0⟩, ⟨7, 2, 0⟩]).2
        (by decide) (by decide)
    cases hcons
    exact hok

/-- C4: `vswr` is `1` exactly when `|z| = 1`, otherwise `(1+|z|)/(1-|z|)`,
and in particular it is negative (not an error) whenever `|z| > 1`. -/
theorem vswr_spec (dp : Datapoint) :
    (Complex.abs dp.z = 1 → dp.vswr = 1) ∧
    (Complex.abs dp.z ≠ 1 →
      dp.vswr = (1 + Complex.abs dp.z) / (1 - Complex.abs dp.z)) ∧
    (1 < Complex.abs dp.z → dp.vswr < 0) := by
  refine ⟨fun h => by simp [Datapoint.vswr, h],
    fun h => by simp [Datapoint.vswr, h], fun h => ?_⟩
  rw [Datapoint.vswr]
  simp only [if_neg (ne_of_gt h)]
  apply div_neg_of_pos_of_neg
  · linarith
  · linarith

/-- C4 witness: `|z| = 1` branch at `z = 1`, and the `|z| = 5 > 1` branch at
`z = 3 + 4i`, whose vswr is the negative value `(1+5)/(1-5)`. -/
theorem vswr_spec_witness :
    Datapoint.vswr ⟨7, 1, 0⟩ = 1 ∧
    Datapoint.vswr ⟨1000000, 3, 4⟩ = (1 + 5) / (1 - 5) ∧
    Datapoint.vswr ⟨1000000, 3, 4⟩ < 0 := by
  have h1 : Complex.abs (Datapoint.z ⟨7, 1, 0⟩) = 1 := by
    rw [show Datapoint.z ⟨7, 1, 0⟩ = ⟨1, 0⟩ from rfl, Complex.abs_apply,
      Complex.normSq_mk]
    norm_num
  have h5 : Complex.abs (Datapoint.z ⟨1000000, 3, 4⟩) = 5 := by
    rw [show Datapoint.z ⟨1000000, 3, 4⟩ = ⟨3, 4⟩ from rfl, Complex.abs_apply,
      Complex.normSq_mk, show (3 : ℝ) * 3 + 4 * 4 = 5 ^ 2 by norm_num]
    exact Real.sqrt_sq (by norm_num)
  refine ⟨(vswr_spec ⟨7, 1, 0⟩).1 h1, ?_, ?_⟩
  · rw [(vswr_spec ⟨1000000, 3, 4⟩).2.1 (by rw [h5]; norm_num), h5]
  · exact (vswr_spec ⟨1000000, 3, 4⟩).2.2 (by rw [h5]; norm_num)

/-- C6: capacitance conversion returns `-∞` at `f = 0`, `+∞` at `Im Z = 0`,
else `-1/(2π·f·Im Z)`; inductance conversion returns `0` at `f = 0`, else
`Im Z/(2π·f)` — the zero-frequency handling is asymmetric. -/
theorem capacitance_inductance_spec (z : ℂ) (f : ℝ) :
    (f = 0 → impedance_to_capacitance z f = ⊥) ∧
    (f ≠ 0 → z.im = 0 → impedance_to_capacitance z f = ⊤) ∧
    (f ≠ 0 → z.im ≠ 0 → impedance_to_capacitance z f =
      ((-(1 / (2 * Real.pi * f * z.im)) : ℝ) : EReal)) ∧
    (f = 0 → impedance_to_inductance z f = 0) ∧
    (f ≠ 0 → impedance_to_inductance z f = z.im / (2 * Real.pi * f)) := by
  refine ⟨fun h => by simp [impedance_to_capacitance, h],
    fun hf hz => by simp [impedance_to_capacitance, hf, hz],
    fun hf hz => ?_,
    fun h => by simp [impedance_to_inductance, h],
    fun hf => ?_⟩
  · rw [impedance_to_capacitance, if_neg hf, if_neg hz]
    exact congrArg _ (by ring_nf)
  · rw [impedance_to_inductance, if_neg hf]
    ring

/-- C6 witness: all five branches at concrete impedances and frequencies. -/
theorem capacitance_inductance_spec_witness :
    impedance_to_capacitance ⟨0, 1⟩ 0 = ⊥ ∧
    impedance_to_capacitance ⟨1, 0⟩ 1 = ⊤ ∧
    impedance_to_capacitance ⟨0, 1⟩ 1 =
      ((-(1 / (2 * Real.pi * 1 * 1)) : ℝ) : EReal) ∧
    impedance_to_inductance ⟨0, 1⟩ 0 = 0 ∧
    impedance_to_inductance ⟨0, 1⟩ 1 = 1 / (2 * Real.pi * 1) :=
  ⟨(capacitance_inductance_spec ⟨0, 1⟩ 0).1 rfl,
   (capacitance_inductance_spec ⟨1, 0⟩ 1).2.1 (by norm_num) rfl,
   (capacitance_inductance_spec ⟨0, 1⟩ 1).2.2.1 (by norm_num) (by norm_num),
   (capacitance_inductance_spec ⟨0, 1⟩ 0).2.2.2.1 rfl,
   (capacitance_inductance_spec ⟨0, 1⟩ 1).2.2.2.2 (by norm_num)⟩

/-- C10: when exactly one of `Re Z`, `Im Z` is zero, `|Z|²` is strictly
positive, the infinite slot of `serial_to_parallel` is `+∞` (copysign of a
positive number), and the finite slot is `|Z|²` over the nonzero component. -/
theorem serial_to_parallel_spec (z : ℂ) :
    (z.re = 0 → z.im ≠ 0 →
      0 < z.re ^ 2 + z.im ^ 2 ∧
      serial_to_parallel z =
        (⊤, (((z.re ^ 2 + z.im ^ 2) / z.im : ℝ) : EReal))) ∧
    (z.im = 0 → z.re ≠ 0 →
      0 < z.re ^ 2 + z.im ^ 2 ∧
      serial_to_parallel z =
        ((((z.re ^ 2 + z.im ^ 2) / z.re : ℝ) : EReal), ⊤)) := by
  constructor
  · intro hre him
    have hpos : 0 < z.re ^ 2 + z.im ^ 2 := by positivity
    have hcond : ¬(z.re = 0 ∧ z.im = 0) := by
      intro hc
      exact him hc.2
    refine ⟨hpos, ?_⟩
    rw [serial_to_parallel]
    simp only [if_neg hcond, if_neg him, if_pos hre]
    rw [copysignInf, if_neg (not_lt.mpr hpos.le)]
  · intro him hre
    have hpos : 0 < z.re ^ 2 + z.im ^ 2 := by positivity
    have hcond : ¬(z.re = 0 ∧ z.im = 0) := by
      intro hc
      exact hre hc.1
    refine ⟨hpos, ?_⟩
    rw [serial_to_parallel]
    simp only [if_neg hcond, if_pos him]
    rw [copysignInf, if_neg (not_lt.mpr hpos.le)]

/-- C10 witness: at `Z = 2i` the result is `(+∞, 2)`; at `Z = 2` it is
`(2, +∞)`. -/
theorem serial_to_parallel_spec_witness :
    serial_to_parallel ⟨0, 2⟩ = (⊤, ((2 : ℝ) : EReal)) ∧
    serial_to_parallel ⟨2, 0⟩ = (((2 : ℝ) : EReal), ⊤) := by
  constructor
  · have h := ((serial_to_parallel_spec ⟨0, 2⟩).1 rfl (by norm_num)).2
    rw [h]
    norm_num
  · have h := ((serial_to_parallel_spec ⟨2, 0⟩).2 rfl (by norm_num)).2
    rw [h]
    norm_num

/-- `getD` commutes with `map` at in-range indices. -/
theorem getD_map_lt {α β : Type} (f : α → β) (l : List α) (i : ℕ) (d : α)
    (d' : β) (h : i < l.length) : (l.map f).getD i d' = f (l.getD i d) := by
  induction l generalizing i with
  | nil => simp at h
  | cons a t ih =>
    cases i with
    | zero => rfl
    | succ n => simpa using ih n (by simpa using h)

/-- C7: `groupDelay` clamps `index±1` into `[0, len-1]`, returns `0` on equal
clamped frequencies and the central difference `-Δphase/(2π·Δfreq)` otherwise;
on a 3-point list it uses points 0 and 2 at index 1, and points 0 and 1 at
index 0. -/
theorem groupDelay_spec :
    (∀ (data : List Datapoint) (index : ℤ), data ≠ [] →
      (0 ≤ clamp_value (index - 1) 0 ((data.length : ℤ) - 1) ∧
       clamp_value (index - 1) 0 ((data.length : ℤ) - 1) ≤ (data.length : ℤ) - 1 ∧
       0 ≤ clamp_value (index + 1) 0 ((data.length : ℤ) - 1) ∧
       clamp_value (index + 1) 0 ((data.length : ℤ) - 1) ≤ (data.length : ℤ) - 1) ∧
      groupDelay data index =
        (if (data.getD (clamp_value (index + 1) 0 ((data.length : ℤ) - 1)).toNat default).freq =
            (data.getD (clamp_value (index - 1) 0 ((data.length : ℤ) - 1)).toNat default).freq
         then 0
         else
           -((data.getD (clamp_value (index + 1) 0 ((data.length : ℤ) - 1)).toNat default).phase -
              (data.getD (clamp_value (index - 1) 0 ((data.length : ℤ) - 1)).toNat default).phase) /
            (2 * Real.pi *
              (((data.getD (clamp_value (index + 1) 0 ((data.length : ℤ) - 1)).toNat default).freq : ℝ) -
               ((data.getD (clamp_value (index - 1) 0 ((data.length : ℤ) - 1)).toNat default).freq : ℝ))))) ∧
    (∀ a b c : Datapoint,
      groupDelay [a, b, c] 1 =
        (if c.freq = a.freq then 0
         else -(c.phase - a.phase) / (2 * Real.pi * ((c.freq : ℝ) - (a.freq : ℝ)))) ∧
      groupDelay [a, b, c] 0 =
        (if b.freq = a.freq then 0
         else -(b.phase - a.phase) / (2 * Real.pi * ((b.freq : ℝ) - (a.freq : ℝ))))) := by
  have key : ∀ (data : List Datapoint) (index : ℤ),
      groupDelay data index =
        (if (data.getD (clamp_value (index + 1) 0 ((data.length : ℤ) - 1)).toNat default).freq =
            (data.getD (clamp_value (index - 1) 0 ((data.length : ℤ) - 1)).toNat default).freq
         then 0
         else
           -((data.getD (clamp_value (index + 1) 0 ((data.length : ℤ) - 1)).toNat default).phase -
              (data.getD (clamp_value (index - 1) 0 ((data.length : ℤ) - 1)).toNat default).phase) /
            (2 * Real.pi *
              (((data.getD (clamp_value (index + 1) 0 ((data.length : ℤ) - 1)).toNat default).freq : ℝ) -
               ((data.getD (clamp_value (index - 1) 0 ((data.length : ℤ) - 1)).toNat default).freq : ℝ)))) := by
    intro data index
    rw [groupDelay]
    simp only [sub_eq_zero]
    split_ifs with h
    · rfl
    · rw [div_div]
      congr 1
      push_cast
      ring
  refine ⟨fun data index hne => ⟨⟨?_, ?_, ?_, ?_⟩, key data index⟩, fun a b c => ⟨?_, ?_⟩⟩
  · simp [clamp_value]
  · have h1 : 1 ≤ data.length := List.length_pos.mpr hne
    have h1' : (1 : ℤ) ≤ (data.length : ℤ) := by exact_mod_cast h1
    rw [clamp_value]
    omega
  · simp [clamp_value]
  · have h1 : 1 ≤ data.length := List.length_pos.mpr hne
    have h1' : (1 : ℤ) ≤ (data.length : ℤ) := by exact_mod_cast h1
    rw [clamp_value]
    omega
  · have h := key [a, b, c] 1
    simpa using h
  · have h := key [a, b, c] 0
    simpa using h

/-- C7 witness: on the singleton list both clamped indices are 0, the
frequencies coincide, and the group delay is 0. -/
theorem groupDelay_spec_witness : groupDelay [(⟨5, 1, 0⟩ : Datapoint)] 0 = 0 := by
  have h := (groupDelay_spec.1 [⟨5, 1, 0⟩] 0 (by simp)).2
  simpa using h

/-- C8: `corr_att_data` is the identity for `att ≤ 0`; for `att > 0` it keeps
length and frequencies and scales every complex value by `10^(att/20)`; at
`att = 20` every sample magnitude is scaled by exactly 10. -/
theorem corr_att_data_spec (data : List Datapoint) (att : ℝ) :
    (att ≤ 0 → corr_att_data data att = data) ∧
    (0 < att →
      (corr_att_data data att).length = data.length ∧
      ∀ i, i < data.length →
        ((corr_att_data data att).getD i default).freq =
          (data.getD i default).freq ∧
        ((corr_att_data data att).getD i default).z =
          (data.getD i default).z * (((10 : ℝ) ^ (att / 20) : ℝ) : ℂ)) ∧
    (∀ i, i < data.length →
      Complex.abs (((corr_att_data data 20).getD i default).z) =
        10 * Complex.abs ((data.getD i default).z)) := by
  have hmap : ∀ (a : ℝ), 0 < a → ∀ i, i < data.length →
      ((corr_att_data data a).getD i default) =
        (let dp := data.getD i default
         let corrected := dp.z * (((10 : ℝ) ^ (a / 20) : ℝ) : ℂ)
         (⟨dp.freq, corrected.re, corrected.im⟩ : Datapoint)) := by
    intro a ha i hi
    rw [corr_att_data, if_neg (not_le.mpr ha)]
    exact getD_map_lt _ data i default _ hi
  refine ⟨fun h => by rw [corr_att_data, if_pos h], fun h => ⟨?_, ?_⟩, ?_⟩
  · rw [corr_att_data, if_neg (not_le.mpr h)]
    exact List.length_map data _
  · intro i hi
    rw [hmap att h i hi]
    exact ⟨rfl, rfl⟩
  · intro i hi
    rw [hmap 20 (by norm_num) i hi]
    have hp : ((10 : ℝ) ^ ((20 : ℝ) / 20) : ℝ) = 10 := by
      rw [show (20 : ℝ) / 20 = 1 by norm_num, Real.rpow_one]
    show Complex.abs ((data.getD i default).z * _) = _
    rw [hp, map_mul, Complex.abs_ofReal]
    norm_num
    ring

/-- C8 witness: identity at `att = 0` and exact 10× magnitude scaling at
`att = 20` on a concrete one-sample list. -/
theorem corr_att_data_spec_witness :
    corr_att_data [(⟨1, 3, 4⟩ : Datapoint)] 0 = [(⟨1, 3, 4⟩ : Datapoint)] ∧
    (corr_att_data [(⟨1, 3, 4⟩ : Datapoint)] 20).length = 1 ∧
    Complex.abs (((corr_att_data [(⟨1, 3, 4⟩ : Datapoint)] 20).getD 0 default).z) =
      10 * Complex.abs ((([(⟨1, 3, 4⟩ : Datapoint)] : List Datapoint).getD 0 default).z) := by
  refine ⟨(corr_att_data_spec [⟨1, 3, 4⟩] 0).1 le_rfl, ?_, ?_⟩
  · rw [((corr_att_data_spec [⟨1, 3, 4⟩] 20).2.1 (by norm_num)).1]
    rfl
  · exact (corr_att_data_spec [⟨1, 3, 4⟩] 20).2.2 0 (by norm_num)

/-- C1 (code bug): after insert(100)/insert(200)/read(100)/insert(100)/read(100)
on a two-field `DataSet`, the second read returns FOUR datapoints — the stale
pair (1, 2) computed from the pre-update interpolators followed by the fresh
pair (5, 6) — because `gen_interpolation` appends to `self.interp` without
clearing it; the claim requires exactly `len(fields) = 2` datapoints, each
reflecting the current data. -/
theorem gen_interpolation_cache_bug :
    c1_trace =
      Except.ok ([⟨100, 1, 0⟩, ⟨100, 2, 0⟩],
        [⟨100, 1, 0⟩, ⟨100, 2, 0⟩, ⟨100, 5, 0⟩, ⟨100, 6, 0⟩]) ∧
    Except.map (fun p => ((p.1).length, (p.2).length)) c1_trace =
      Except.ok (2, 4) ∧
    (["11", "21"] : List String).length = 2 :=
  ⟨rfl, rfl, rfl⟩
